import Mathlib

/-!
Verification of the obd2-connector OBD-II/ELM327 response-decoding engine.

This file is a shallow embedding of the decoding core of the repository
(src/obd/reader.py and src/obd/commands.py) together with theorems that
settle the frozen claims about it.  Python strings are modelled as Lean
`String`/`List Char`, Python integers as `Nat`, Python floats produced by
the decoders as `Rat` (all decoder arithmetic in the source is exact
decimal arithmetic), Python `None`/values as `Option`, and Python
exceptions as the error branch of `Except`.
-/

namespace Obd2

/-! ### Python string primitives

`str.strip`, `str.upper`, `str.replace` and no-argument `str.split` as used
by the parsing helpers in src/obd/reader.py, modelled on `List Char`. -/

/-- Python `str.strip()`: drop leading and trailing whitespace. -/
def pyStrip (cs : List Char) : List Char :=
  ((cs.dropWhile Char.isWhitespace).reverse.dropWhile Char.isWhitespace).reverse

/-- Helper for `pySplit`: accumulate the current (reversed) token. -/
def pySplitGo : List Char → List Char → List (List Char)
  | [], acc => if acc.isEmpty then [] else [acc.reverse]
  | c :: cs, acc =>
    if c.isWhitespace then
      if acc.isEmpty then pySplitGo cs [] else acc.reverse :: pySplitGo cs []
    else
      pySplitGo cs (c :: acc)

/-- Python `str.split()` with no argument: split on whitespace runs,
discarding empty tokens. -/
def pySplit (cs : List Char) : List (List Char) :=
  pySplitGo cs []

/-- `raw.upper().replace("\r", " ").replace("\n", " ")` on the character
list (the common normalization of the parsing helpers in reader.py). -/
def normalizeChars (cs : List Char) : List Char :=
  ((cs.map Char.toUpper).map (fun c => if c == '\r' then ' ' else c)).map
    (fun c => if c == '\n' then ' ' else c)

/-- Membership of a character in `"0123456789ABCDEF"`, the hex-token filter
of reader.py. -/
def isHexChar (c : Char) : Bool :=
  ['0', '1', '2', '3', '4', '5', '6', '7', '8', '9',
   'A', 'B', 'C', 'D', 'E', 'F'].contains c

/-- Value of one hex digit as Python `int(·, 16)` computes it (uppercase or
lowercase); only ever applied to hex digits. -/
def hexVal (c : Char) : Nat :=
  if c.isDigit then c.toNat - '0'.toNat
  else if 'a' ≤ c then c.toNat - 'a'.toNat + 10
  else c.toNat - 'A'.toNat + 10

/-- Python `int(t, 16)` on a token of hex digits. -/
def hexNat (t : List Char) : Nat :=
  t.foldl (fun a c => a * 16 + hexVal c) 0

/-- Uppercase hex digit character for a nibble. -/
def upDigit (n : Nat) : Char :=
  if n < 10 then Char.ofNat ('0'.toNat + n) else Char.ofNat ('A'.toNat + (n - 10))

/-- Fuel-driven digit loop for `natToHexChars` (structural recursion so
that the kernel can evaluate it; the fuel `n + 1` always suffices). -/
def natToHexGo : Nat → Nat → List Char
  | 0, _ => []
  | fuel + 1, n =>
    if n < 16 then [upDigit n] else natToHexGo fuel (n / 16) ++ [upDigit (n % 16)]

/-- Uppercase hex representation of a natural number (Python `format(n, "X")`). -/
def natToHexChars (n : Nat) : List Char :=
  natToHexGo (n + 1) n

/-- Fuel-driven digit loop for `natToDecChars`. -/
def natToDecGo : Nat → Nat → List Char
  | 0, _ => []
  | fuel + 1, n =>
    if n < 10 then [Char.ofNat ('0'.toNat + n)]
    else natToDecGo fuel (n / 10) ++ [Char.ofNat ('0'.toNat + n % 10)]

/-- Decimal representation of a natural number (Python `str(n)` / default
f-string formatting). -/
def natToDecChars (n : Nat) : List Char :=
  natToDecGo (n + 1) n

/-- Python `format(n, "02X")`: uppercase hex, zero-padded to width 2. -/
def format02X (n : Nat) : List Char :=
  let s := natToHexChars n
  if s.length < 2 then '0' :: s else s

/-- Python `list.index` returning the first index of `x`, as an `Option`
(the raised `ValueError` of the source is the `none` case, which the
caller catches). -/
def pyIndexOf (l : List (List Char)) (x : List Char) : Option Nat :=
  match l with
  | [] => none
  | a :: as => if a == x then some 0 else (pyIndexOf as x).map (· + 1)

/-! ### Hex frame tokenization (reader.py lines 22-28, 285-287, 314-316) -/

/-- The 2-character all-hex tokens of a normalized character list:
`[t for t in lines if all(c in "0123456789ABCDEF" for c in t) and len(t) == 2]`. -/
def hexTokensOf (cs : List Char) : List (List Char) :=
  (pySplit cs).filter (fun t => t.all isHexChar && t.length == 2)

/-- Tokenization used by `_parse_hex_response` and `_parse_dtcs`
(`raw.strip().upper().replace("\r", " ").replace("\n", " ")` then split and
filter). -/
def hexTokens (raw : String) : List (List Char) :=
  hexTokensOf (normalizeChars (pyStrip raw.toList))

/-! ### `_parse_hex_response` (reader.py lines 16-44) -/

/-- Shallow embedding of `_parse_hex_response(raw, mode, pid)`.

The `idx + 1 < len(hex_tokens)` guard of the source is rendered by the
`getElem?` match: the PID check is only performed when a token follows the
response-mode token.  `int(mode, 16)` is applied to registry mode strings,
which are always valid hex. -/
def parseHexResponse (raw mode pid : String) : Option (List Nat) :=
  let hts := hexTokens raw
  if hts.isEmpty then none
  else
    let responseMode := format02X (hexNat mode.toList + 0x40)
    match pyIndexOf hts responseMode with
    | none => none
    | some idx =>
      match hts[idx + 1]? with
      | some t =>
        if t ≠ pid.toList.map Char.toUpper then none
        else
          let data := hts.drop (idx + 2)
          if data.isEmpty then none else some (data.map hexNat)
      | none =>
        let data := hts.drop (idx + 2)
        if data.isEmpty then none else some (data.map hexNat)

/-- The frame-parsing algorithm exactly as the specification words it
(spec §4.2 steps 4-6): locate the first response-mode token; "no data" if
absent or if the token immediately following it does not equal the
requested PID byte; payload is everything after those two tokens, "no
data" when empty. -/
def claimHexParse (raw mode pid : String) : Option (List Nat) :=
  let toks := hexTokens raw
  let responseMode := format02X (hexNat mode.toList + 0x40)
  match pyIndexOf toks responseMode with
  | none => none
  | some i =>
    if toks[i + 1]? ≠ some (pid.toList.map Char.toUpper) then none
    else
      let payload := toks.drop (i + 2)
      if payload.isEmpty then none else some (payload.map hexNat)

/-! ### Lemmas about the frame parser -/

theorem pyIndexOf_ne_nil {l : List (List Char)} {x : List Char} {i : Nat}
    (h : pyIndexOf l x = some i) : l ≠ [] := by
  intro he; subst he; simp [pyIndexOf] at h

/-- The source's asymmetric PID check (performed only when a token follows
the response-mode token) coincides with the specification's description. -/
theorem hexParse_eq_claim (raw mode pid : String) :
    parseHexResponse raw mode pid = claimHexParse raw mode pid := by
  unfold parseHexResponse claimHexParse
  cases h : pyIndexOf (hexTokens raw) (format02X (hexNat mode.data + 0x40)) with
  | none =>
      by_cases he : (hexTokens raw).isEmpty <;> simp [he, h]
  | some i =>
      have hne : hexTokens raw ≠ [] := pyIndexOf_ne_nil h
      have he : (hexTokens raw).isEmpty = false := by
        simpa [List.isEmpty_iff] using hne
      cases h2 : (hexTokens raw)[i + 1]? with
      | some t =>
          by_cases ht : t = pid.toList.map Char.toUpper <;> simp [he, h, h2, ht]
      | none =>
          have hlen : (hexTokens raw).length ≤ i + 1 := by
            simpa [List.getElem?_eq_none_iff] using h2
          have hdrop : (hexTokens raw).drop (i + 2) = [] := by
            apply List.drop_eq_nil_of_le; omega
          simp [he, h, h2, hdrop]

/-- Claim C1: the hex frame parser tokenizes on whitespace keeping only
2-character hex tokens, locates the first occurrence of the token equal to
mode + 0x40, and returns "no data" (`none`) if that token is absent, if
the token immediately following it does not equal the requested PID byte,
or if the payload after those two tokens is empty; otherwise it returns
the payload tokens converted to integers.  In particular, parsing
"41 0C 0B B8" for mode 01/PID 0C yields [0x0B, 0xB8], and parsing
"NO DATA" or "" yields "no data". -/
theorem c1_hex_frame_parse :
    (∀ raw mode pid : String, parseHexResponse raw mode pid = claimHexParse raw mode pid)
    ∧ parseHexResponse "41 0C 0B B8" "01" "0C" = some [0x0B, 0xB8]
    ∧ parseHexResponse "NO DATA" "01" "0C" = none
    ∧ parseHexResponse "" "01" "0C" = none :=
  ⟨hexParse_eq_claim, by decide, by decide, by decide⟩

/-! ### `_parse_dtcs` (reader.py lines 267-309) -/

/-- The `_DTC_FIRST_CHAR` table of reader.py. -/
def dtcFirstChar : List (Nat × Char) := [(0, 'P'), (1, 'C'), (2, 'B'), (3, 'U')]

/-- One DTC string from a (high, low) byte pair, as the loop body of
`_parse_dtcs` builds it (`f"..."` with the second digit in decimal and the
last three in uppercase hex). -/
def dtcCode (high low : Nat) : List Char :=
  let system := (high &&& 0xC0) >>> 6
  let letter := (dtcFirstChar.lookup system).getD 'P'
  let digit2 := (high &&& 0x30) >>> 4
  let digit3 := high &&& 0x0F
  let digit4 := (low &&& 0xF0) >>> 4
  let digit5 := low &&& 0x0F
  letter :: (natToDecChars digit2 ++ natToHexChars digit3 ++
    natToHexChars digit4 ++ natToHexChars digit5)

/-- The `while i + 1 < len(hex_tokens)` loop of `_parse_dtcs`: consume byte
values two at a time (a trailing odd byte is ignored), skip all-zero
pairs, emit codes in order. -/
def dtcPairLoop : List Nat → List (List Char)
  | high :: low :: rest =>
    if high == 0 && low == 0 then dtcPairLoop rest
    else dtcCode high low :: dtcPairLoop rest
  | _ => []

/-- `_parse_dtcs` strips the leading token when it is the mode-03 or
mode-07 response byte. -/
def dtcBody (toks : List (List Char)) : List (List Char) :=
  match toks with
  | t :: rest => if t == ['4', '3'] || t == ['4', '7'] then rest else toks
  | [] => toks

/-- Shallow embedding of `_parse_dtcs(raw)` (the per-pair `int(·, 16)`
conversions of the source loop are rendered as one `map hexNat`). -/
def parseDtcs (raw : String) : List String :=
  let toks := hexTokens raw
  (dtcPairLoop ((dtcBody toks).map hexNat)).map (fun cs => String.mk cs)

/-- Consecutive pairs of a byte list (spec §4.4 "consume the remaining
tokens two at a time"). -/
def pairsOf : List Nat → List (Nat × Nat)
  | a :: b :: rest => (a, b) :: pairsOf rest
  | _ => []

/-- Spec §4.4 letter table: system nibble 0-3 mapped through
`0:P 1:C 2:B 3:U`. -/
def specDtcLetter (system : Nat) : Char :=
  match system with
  | 0 => 'P'
  | 1 => 'C'
  | 2 => 'B'
  | 3 => 'U'
  | _ => 'P'

/-- Spec §4.4 code construction, written with arithmetic nibble
extraction: letter from the top 2 bits of the high byte, second digit from
the next 2 bits, then the low nibble of the high byte and the two nibbles
of the low byte as hex digits. -/
def specDtcCode (high low : Nat) : List Char :=
  [specDtcLetter (high / 64), Char.ofNat ('0'.toNat + high / 16 % 4),
   upDigit (high % 16), upDigit (low / 16), upDigit (low % 16)]

/-- The DTC decoder exactly as the specification words it: strip the
leading response-mode token, pair the remaining bytes, drop all-zero
pairs, emit the 5-character codes in reply order. -/
def claimDtcParse (raw : String) : List String :=
  let toks := hexTokens raw
  ((pairsOf ((dtcBody toks).map hexNat)).filter
      (fun p => !(p.1 == 0 && p.2 == 0))).map
    (fun p => String.mk (specDtcCode p.1 p.2))

set_option maxRecDepth 8000 in
theorem hexVal_lt_16 {c : Char} (h : isHexChar c = true) : hexVal c < 16 := by
  have h' : c ∈ ['0', '1', '2', '3', '4', '5', '6', '7', '8', '9',
      'A', 'B', 'C', 'D', 'E', 'F'] := by simpa [isHexChar] using h
  fin_cases h' <;> decide

theorem hexNat_lt_256 {t : List Char} (hall : ∀ c ∈ t, isHexChar c = true)
    (hlen : t.length = 2) : hexNat t < 256 := by
  match t, hlen with
  | [c1, c2], _ =>
    have h1 := hexVal_lt_16 (hall c1 (by simp))
    have h2 := hexVal_lt_16 (hall c2 (by simp))
    simp [hexNat]
    omega

set_option maxRecDepth 100000 in
theorem dtc_bits : ∀ h < 256, (h &&& 0xC0) >>> 6 = h / 64 ∧
    (h &&& 0x30) >>> 4 = h / 16 % 4 ∧ h &&& 0x0F = h % 16 ∧
    (h &&& 0xF0) >>> 4 = h / 16 := by decide

theorem dtc_letter : ∀ s < 4, (dtcFirstChar.lookup s).getD 'P' = specDtcLetter s := by
  decide

theorem natToDec_single {n : Nat} (h : n < 10) :
    natToDecChars n = [Char.ofNat ('0'.toNat + n)] := by
  simp [natToDecChars, natToDecGo, h]

theorem natToHex_single {n : Nat} (h : n < 16) :
    natToHexChars n = [upDigit n] := by
  simp [natToHexChars, natToHexGo, h]

/-- On byte values (< 256) the bit-mask construction of the source equals
the specification's nibble description. -/
theorem dtcCode_eq_spec {high low : Nat} (hh : high < 256) (hl : low < 256) :
    dtcCode high low = specDtcCode high low := by
  obtain ⟨b1, b2, b3, -⟩ := dtc_bits high hh
  obtain ⟨-, -, b5, b4⟩ := dtc_bits low hl
  have hsys : high / 64 < 4 := by omega
  have hd2 : high / 16 % 4 < 10 := by omega
  have hd3 : high % 16 < 16 := by omega
  have hd4 : low / 16 < 16 := by omega
  have hd5 : low % 16 < 16 := by omega
  simp only [dtcCode, specDtcCode, b1, b2, b3, b4, b5, dtc_letter _ hsys,
    natToDec_single hd2, natToHex_single hd3, natToHex_single hd4,
    natToHex_single hd5]
  rfl

theorem dtcPairLoop_eq : ∀ bs : List Nat, (∀ b ∈ bs, b < 256) →
    dtcPairLoop bs =
      ((pairsOf bs).filter (fun p => !(p.1 == 0 && p.2 == 0))).map
        (fun p => specDtcCode p.1 p.2)
  | [] => by intro _; simp [dtcPairLoop, pairsOf]
  | [a] => by intro _; simp [dtcPairLoop, pairsOf]
  | a :: b :: rest => by
    intro h
    have ha : a < 256 := h a (by simp)
    have hb : b < 256 := h b (by simp)
    have hr : ∀ x ∈ rest, x < 256 := fun x hx => h x (by simp [hx])
    have ih := dtcPairLoop_eq rest hr
    by_cases hz : a = 0 ∧ b = 0
    · simp [dtcPairLoop, pairsOf, hz.1, hz.2, ih]
    · have hcode := dtcCode_eq_spec ha hb
      rcases Decidable.not_and_iff_or_not.mp hz with h0 | h0 <;>
        simp [dtcPairLoop, pairsOf, h0, ih, hcode]

theorem mem_hexTokensOf {t : List Char} {cs : List Char}
    (h : t ∈ hexTokensOf cs) : (∀ c ∈ t, isHexChar c = true) ∧ t.length = 2 := by
  unfold hexTokensOf at h
  have := List.of_mem_filter h
  simpa using this

theorem mem_dtcBody {t : List Char} {toks : List (List Char)}
    (h : t ∈ dtcBody toks) : t ∈ toks := by
  unfold dtcBody at h
  cases toks with
  | nil => simp at h
  | cons x xs =>
    by_cases hx : (x == ['4', '3'] || x == ['4', '7']) = true <;>
      simp [hx] at h ⊢ <;> tauto

theorem dtcParse_eq_claim (raw : String) : parseDtcs raw = claimDtcParse raw := by
  unfold parseDtcs claimDtcParse
  have hbody : ∀ b ∈ (dtcBody (hexTokens raw)).map hexNat, b < 256 := by
    intro b hbmem
    simp at hbmem
    obtain ⟨t, htmem, rfl⟩ := hbmem
    have ht := mem_dtcBody htmem
    unfold hexTokens at ht
    have := mem_hexTokensOf ht
    exact hexNat_lt_256 this.1 this.2
  dsimp only
  rw [dtcPairLoop_eq _ hbody, List.map_map]
  rfl

/-- Claim C3: the DTC decoder strips the leading response-mode token,
consumes the remaining hex tokens two at a time, skips any all-zero pair,
and otherwise emits a 5-character code whose letter comes from the top 2
bits of the high byte via the P/C/B/U table, whose second digit is the
next 2 bits of the high byte, and whose last three digits are the low
nibble of the high byte and the two nibbles of the low byte, in reply
order; "43 01 43 00 00 00 00" yields exactly ["P0143"],
"43 00 00 00 00 00 00" yields [], and "43 01 43 04 05 00 00" yields
["P0143", "P0405"]. -/
theorem c3_dtc_decoder :
    (∀ raw : String, parseDtcs raw = claimDtcParse raw)
    ∧ parseDtcs "43 01 43 00 00 00 00" = ["P0143"]
    ∧ parseDtcs "43 00 00 00 00 00 00" = []
    ∧ parseDtcs "43 01 43 04 05 00 00" = ["P0143", "P0405"] :=
  ⟨dtcParse_eq_claim, by decide, by decide, by decide⟩

/-! ### `_parse_vin` (reader.py lines 312-330)

`_parse_vin` normalizes without `strip()` (line 314) and walks the tokens
with a `collecting` flag: every token equal to `"49"` switches the flag on
and is itself skipped (including later occurrences), and once the flag is
on every other token with a printable value (0x20-0x7E) is collected. -/

def vinCollect : List (List Char) → Bool → List Char
  | [], _ => []
  | t :: ts, collecting =>
    if t == ['4', '9'] then vinCollect ts true
    else if collecting then
      let v := hexNat t
      if 0x20 ≤ v ∧ v ≤ 0x7E then Char.ofNat v :: vinCollect ts collecting
      else vinCollect ts collecting
    else vinCollect ts collecting

/-- Shallow embedding of `_parse_vin(raw)`. -/
def parseVin (raw : String) : String :=
  let toks := hexTokensOf (normalizeChars raw.toList)
  let vin := pyStrip (vinCollect toks false)
  if vin.length ≥ 5 then String.mk vin else "N/A"

/-- The VIN decoding algorithm exactly as claim C4 words it: discard
everything up to and including the Mode 09 positive-response marker token,
do not include the byte immediately following that marker, collect
printable ASCII bytes from the remainder, "N/A" when fewer than 5
characters are recovered. -/
def claimVinParse (raw : String) : String :=
  let toks := hexTokensOf (normalizeChars raw.toList)
  match pyIndexOf toks ['4', '9'] with
  | none => "N/A"
  | some i =>
    let rest := (toks.drop (i + 1)).drop 1
    let chars := ((rest.map hexNat).filter
      (fun v => 0x20 ≤ v && v ≤ 0x7E)).map Char.ofNat
    if chars.length ≥ 5 then String.mk chars else "N/A"

/-- The amended description of `_parse_vin`: after the first marker token,
every token other than the marker itself contributes its byte when
printable (the byte immediately following the marker included, if it is
printable); the result is whitespace-stripped and "N/A" when shorter than
5 characters. -/
def amendedVin (raw : String) : String :=
  let toks := hexTokensOf (normalizeChars raw.toList)
  let chars :=
    match pyIndexOf toks ['4', '9'] with
    | none => []
    | some i =>
      ((((toks.drop (i + 1)).filter (fun t => !(t == ['4', '9']))).map hexNat).filter
        (fun v => 0x20 ≤ v && v ≤ 0x7E)).map Char.ofNat
  let vin := pyStrip chars
  if vin.length ≥ 5 then String.mk vin else "N/A"

theorem vinCollect_true : ∀ ts : List (List Char),
    vinCollect ts true =
      (((ts.filter (fun t => !(t == ['4', '9']))).map hexNat).filter
        (fun v => 0x20 ≤ v && v ≤ 0x7E)).map Char.ofNat
  | [] => by simp [vinCollect]
  | t :: ts => by
    have ih := vinCollect_true ts
    by_cases h49 : (t == ['4', '9']) = true
    · simp [vinCollect, h49, ih]
    · by_cases hpr : 0x20 ≤ hexNat t ∧ hexNat t ≤ 0x7E <;>
        simp [vinCollect, h49, hpr, ih]

theorem vinCollect_false : ∀ ts : List (List Char),
    vinCollect ts false =
      match pyIndexOf ts ['4', '9'] with
      | none => []
      | some i => vinCollect (ts.drop (i + 1)) true
  | [] => by simp [vinCollect, pyIndexOf]
  | t :: ts => by
    have ih := vinCollect_false ts
    by_cases h49 : (t == ['4', '9']) = true
    · simp [vinCollect, pyIndexOf, h49]
    · cases hidx : pyIndexOf ts ['4', '9'] with
      | none => simp [vinCollect, pyIndexOf, h49, hidx, hidx ▸ ih]
      | some i => simp [vinCollect, pyIndexOf, h49, hidx, hidx ▸ ih]

theorem parseVin_eq_amended (raw : String) : parseVin raw = amendedVin raw := by
  unfold parseVin amendedVin
  dsimp only
  rw [vinCollect_false]
  cases hidx : pyIndexOf (hexTokensOf (normalizeChars raw.toList)) ['4', '9'] with
  | none => simp [hidx]
  | some i => simp [hidx, vinCollect_true]

/-- Counterexample to claim C4: on the reply "49 41 42 43 44 45" the code
collects the printable byte 0x41 immediately following the marker and
returns "ABCDE", while the decoder described by the claim (which excludes
the byte immediately following the marker) recovers only 4 characters and
returns "N/A". -/
theorem c4_vin_counterexample :
    parseVin "49 41 42 43 44 45" = "ABCDE"
    ∧ claimVinParse "49 41 42 43 44 45" = "N/A"
    ∧ ("ABCDE" : String) ≠ "N/A" :=
  ⟨by decide, by decide, by decide⟩

/-- Claim C4 (amended): the VIN decoder discards everything up to the
first Mode 09 positive-response marker token, skips every occurrence of
the marker token itself, collects the printable ASCII bytes (0x20-0x7E) of
all other tokens after the first marker — the byte immediately following
the marker is excluded only when it is non-printable, which is the case
for the PID/frame-counter bytes of a well-formed reply — and returns
"N/A" whenever fewer than 5 characters are recovered; a reply containing
the printable characters of a valid 17-character VIN (which contains
no letter I, hence no 0x49 data byte) recovers that VIN verbatim. -/
theorem c4_vin_decoder_amended :
    (∀ raw : String, parseVin raw = amendedVin raw)
    ∧ parseVin "49 02 31 47 31 4A 43 35 53 48 33 41 34 31 30 30 30 30 31"
        = "1G1JC5SH3A4100001"
    ∧ parseVin "NO DATA" = "N/A"
    ∧ parseVin "" = "N/A" :=
  ⟨parseVin_eq_amended, by decide, by decide, by decide⟩

/-! ### Value decoders (commands.py lines 20-51)

Python floats produced by the decoders are modelled as exact rationals
(all the arithmetic in the source is decimal and exact at the claimed
inputs), Python `round` as round-half-to-even at the given number of
decimal places, and the `IndexError` raised by `b[i]` on a short list as
the error branch of `Except`. -/

/-- Decoded values: numbers, or the monitor-status dict
`{"mil_on": bool, "dtc_count": int}`. -/
inductive PyVal where
  | num (q : ℚ)
  | milStatus (milOn : Bool) (dtcCount : ℕ)
deriving DecidableEq

/-- Python list indexing `b[i]`: the value, or a raised `IndexError`. -/
def pyElem (b : List ℕ) (i : ℕ) : Except Unit ℕ :=
  match b[i]? with
  | some v => .ok v
  | none => .error ()

@[simp] theorem pyElem_cons_zero (a : ℕ) (t : List ℕ) : pyElem (a :: t) 0 = .ok a := by
  simp [pyElem]

@[simp] theorem pyElem_cons_succ (a : ℕ) (t : List ℕ) (i : ℕ) :
    pyElem (a :: t) (i + 1) = pyElem t i := by
  simp [pyElem]

@[simp] theorem pyElem_nil (i : ℕ) : pyElem [] i = .error () := by
  simp [pyElem]

@[simp] theorem except_bind_ok {ε α β : Type} (a : α) (f : α → Except ε β) :
    (Except.ok a >>= f) = f a := rfl

@[simp] theorem except_bind_err {ε α β : Type} (e : ε) (f : α → Except ε β) :
    ((Except.error e : Except ε α) >>= f) = .error e := rfl

@[simp] theorem except_pure_eq {ε α : Type} (a : α) :
    (pure a : Except ε α) = .ok a := rfl

/-- Round half to even (the rounding of Python `round` on exact values). -/
def roundHalfEven (x : ℚ) : ℤ :=
  let f := ⌊x⌋
  let r := x - f
  if r < 1 / 2 then f
  else if 1 / 2 < r then f + 1
  else if f % 2 = 0 then f else f + 1

/-- Python `round(x, n)` on an exact rational. -/
def pyRound (x : ℚ) (n : ℕ) : ℚ := (roundHalfEven (x * 10 ^ n) : ℚ) / 10 ^ n

def _a (b : List ℕ) : Except Unit PyVal := do
  let a0 ← pyElem b 0
  pure (.num a0)

def _ab (b : List ℕ) : Except Unit PyVal := do
  let a0 ← pyElem b 0
  let a1 ← pyElem b 1
  pure (.num ((a0 : ℚ) * 256 + a1))

def _rpm (b : List ℕ) : Except Unit PyVal := do
  let a0 ← pyElem b 0
  let a1 ← pyElem b 1
  pure (.num (((a0 : ℚ) * 256 + a1) / 4))

def _temp (b : List ℕ) : Except Unit PyVal := do
  let a0 ← pyElem b 0
  pure (.num ((a0 : ℚ) - 40))

def _percent_a (b : List ℕ) : Except Unit PyVal := do
  let a0 ← pyElem b 0
  pure (.num (pyRound ((a0 : ℚ) * 100 / 255) 1))

def _percent_ab (b : List ℕ) : Except Unit PyVal := do
  let a0 ← pyElem b 0
  let a1 ← pyElem b 1
  pure (.num (pyRound (((a0 : ℚ) * 256 + a1) * 100 / 65535) 1))

def _maf (b : List ℕ) : Except Unit PyVal := do
  let a0 ← pyElem b 0
  let a1 ← pyElem b 1
  pure (.num (pyRound (((a0 : ℚ) * 256 + a1) / 100) 2))

def _timing (b : List ℕ) : Except Unit PyVal := do
  let a0 ← pyElem b 0
  pure (.num ((a0 : ℚ) / 2 - 64))

def _voltage (b : List ℕ) : Except Unit PyVal := do
  let a0 ← pyElem b 0
  let a1 ← pyElem b 1
  pure (.num (pyRound (((a0 : ℚ) * 256 + a1) / 1000) 3))

/-- `0.05` of the source is the exact rational 1/20. -/
def _fuel_rate (b : List ℕ) : Except Unit PyVal := do
  let a0 ← pyElem b 0
  let a1 ← pyElem b 1
  pure (.num (pyRound (((a0 : ℚ) * 256 + a1) * (1 / 20)) 2))

def _short_fuel_trim (b : List ℕ) : Except Unit PyVal := do
  let a0 ← pyElem b 0
  pure (.num (pyRound (((a0 : ℚ) - 128) * 100 / 128) 1))

def _long_fuel_trim (b : List ℕ) : Except Unit PyVal := do
  let a0 ← pyElem b 0
  pure (.num (pyRound (((a0 : ℚ) - 128) * 100 / 128) 1))

def _evap_pressure (b : List ℕ) : Except Unit PyVal := do
  let a0 ← pyElem b 0
  let a1 ← pyElem b 1
  let val : ℤ := a0 * 256 + a1
  let sval : ℤ := if val ≥ 32768 then val - 65536 else val
  pure (.num (pyRound ((sval : ℚ) / 4) 2))

/-- The `MIL_STATUS` lambda of commands.py:
`{"mil_on": bool(b[0] & 0x80), "dtc_count": b[0] & 0x7F}`. -/
def milParse (b : List ℕ) : Except Unit PyVal := do
  let a0 ← pyElem b 0
  pure (.milStatus (a0 &&& 0x80 != 0) (a0 &&& 0x7F))

/-! ### PID registry (commands.py lines 44-299)

Display-only fields (`desc`, `unit`, `min`, `max`, alert thresholds) are
omitted: no claim mentions them. -/

structure PidInfo where
  mode : String
  pid : String
  bytes : ℕ
  parse : List ℕ → Except Unit PyVal

/-- `OBD_PIDS` in source (insertion) order. -/
def OBD_PIDS : List (String × PidInfo) := [
  ("MIL_STATUS", ⟨"01", "01", 4, milParse⟩),
  ("RPM", ⟨"01", "0C", 2, _rpm⟩),
  ("SPEED", ⟨"01", "0D", 1, _a⟩),
  ("COOLANT_TEMP", ⟨"01", "05", 1, _temp⟩),
  ("ENGINE_LOAD", ⟨"01", "04", 1, _percent_a⟩),
  ("THROTTLE", ⟨"01", "11", 1, _percent_a⟩),
  ("MAF", ⟨"01", "10", 2, _maf⟩),
  ("INTAKE_TEMP", ⟨"01", "0F", 1, _temp⟩),
  ("MAP", ⟨"01", "0B", 1, _a⟩),
  ("TIMING_ADVANCE", ⟨"01", "0E", 1, _timing⟩),
  ("OIL_TEMP", ⟨"01", "5C", 1, _temp⟩),
  ("FUEL_LEVEL", ⟨"01", "2F", 1, _percent_a⟩),
  ("FUEL_RATE", ⟨"01", "5E", 2, _fuel_rate⟩),
  ("SHORT_FUEL_TRIM_1", ⟨"01", "06", 1, _short_fuel_trim⟩),
  ("LONG_FUEL_TRIM_1", ⟨"01", "07", 1, _long_fuel_trim⟩),
  ("VOLTAGE", ⟨"01", "42", 2, _voltage⟩),
  ("BARO_PRESSURE", ⟨"01", "33", 1, _a⟩),
  ("AMBIENT_TEMP", ⟨"01", "46", 1, _temp⟩),
  ("RUNTIME", ⟨"01", "1F", 2, _ab⟩),
  ("DISTANCE_MIL", ⟨"01", "21", 2, _ab⟩),
  ("DISTANCE_SINCE_CLR", ⟨"01", "31", 2, _ab⟩),
  ("WARMUPS_SINCE_CLR", ⟨"01", "30", 1, _a⟩),
  ("ABS_LOAD", ⟨"01", "43", 2, _percent_ab⟩),
  ("EVAP_PRESSURE", ⟨"01", "32", 2, _evap_pressure⟩)]

/-! ### `OBDReader.read_pid` (reader.py lines 63-81)

The connector is the function `send`; a transport failure is its error
branch.  The `try/except Exception: pass; return None` of the source is
the final match: any raised error inside the attempt becomes `.ok none`,
while an unknown key raises `ValueError` (the `.error` branch of the
result, which is never caught). -/

def readPid (send : String → Except Unit String) (key : String) :
    Except String (Option PyVal) :=
  match OBD_PIDS.lookup key with
  | none => .error ("Unknown PID key: " ++ key)
  | some info =>
    let attempt : Except Unit (Option PyVal) := do
      let raw ← send (info.mode ++ info.pid)
      match parseHexResponse raw info.mode info.pid with
      | some data =>
        if !data.isEmpty && info.bytes ≤ data.length then do
          let v ← info.parse (data.take info.bytes)
          pure (some v)
        else pure none
      | none => pure none
    match attempt with
    | .ok r => .ok r
    | .error _ => .ok none

/-- `Except`-to-`Option` collapse performed by the `try/except` of
`read_pid` around a decode. -/
def exceptToOption : Except Unit PyVal → Option PyVal
  | .ok v => some v
  | .error _ => none

/-! ### Lemmas about `read_pid` -/

/-- A payload returned by the frame parser is never the empty list (the
parser returns "no data" instead). -/
theorem parseHex_some_not_nil {raw mode pid : String} {d : List ℕ}
    (h : parseHexResponse raw mode pid = some d) : d.isEmpty = false := by
  rw [hexParse_eq_claim] at h
  unfold claimHexParse at h
  dsimp only at h
  cases hidx : pyIndexOf (hexTokens raw) (format02X (hexNat mode.toList + 0x40)) with
  | none => rw [hidx] at h; simp at h
  | some i =>
    rw [hidx] at h
    dsimp only at h
    split at h
    · exact absurd h (by simp)
    · split at h
      · exact absurd h (by simp)
      · next hempty =>
        injection h with h2
        subst h2
        simp only [List.isEmpty_iff, List.map_eq_nil_iff] at hempty ⊢
        simpa using hempty

/-- `read_pid` hands the decode function exactly the first
`info.bytes` payload bytes. -/
theorem readPid_take (key : String) (info : PidInfo) (raw : String) (d : List ℕ)
    (hk : OBD_PIDS.lookup key = some info)
    (hp : parseHexResponse raw info.mode info.pid = some d)
    (hb : info.bytes ≤ d.length) :
    readPid (fun _ => .ok raw) key = .ok (exceptToOption (info.parse (d.take info.bytes))) := by
  have hne := parseHex_some_not_nil hp
  unfold readPid
  rw [hk]
  dsimp only
  rw [except_bind_ok, hp]
  simp only [hne, Bool.not_false, Bool.true_and, if_true, decide_eq_true hb]
  cases hv : info.parse (d.take info.bytes) <;> simp [hv, exceptToOption]

/-- `read_pid` (guard `len(data) >= info["bytes"]` failing) returns `None`
when the parsed payload is shorter than the declared byte count. -/
theorem readPid_short (key : String) (info : PidInfo) (raw : String) (d : List ℕ)
    (hk : OBD_PIDS.lookup key = some info)
    (hp : parseHexResponse raw info.mode info.pid = some d)
    (hb : d.length < info.bytes) :
    readPid (fun _ => .ok raw) key = .ok none := by
  unfold readPid
  rw [hk]
  dsimp only
  rw [except_bind_ok, hp]
  have hle : (info.bytes ≤ d.length) = False := by simp; omega
  simp [hle]

/-- Claim C2: each registered PID's decode function applied to a byte list
of its declared length computes a value (the spec formula); in particular
RPM on [0x0C, 0x00] is 768.0 and on [0x1A, 0xF8] is 1726.0, SPEED on
[100] is 100, COOLANT_TEMP on [100] is 60, VOLTAGE on [0x37, 0xB8] is
14.264 (exactly 14264/1000 here, hence within 0.001), and monitor-status
on [0x81, 0, 0, 0] is mil_on = true, dtc_count = 1 while on [0, 0, 0, 0]
it is mil_on = false, dtc_count = 0. -/
theorem c2_value_decoders :
    (∀ p ∈ OBD_PIDS, ∀ bs : List ℕ, bs.length = p.2.bytes → ∃ v, p.2.parse bs = .ok v)
    ∧ OBD_PIDS.lookup "RPM" = some ⟨"01", "0C", 2, _rpm⟩
    ∧ _rpm [0x0C, 0x00] = .ok (.num 768)
    ∧ _rpm [0x1A, 0xF8] = .ok (.num 1726)
    ∧ OBD_PIDS.lookup "SPEED" = some ⟨"01", "0D", 1, _a⟩
    ∧ _a [100] = .ok (.num 100)
    ∧ OBD_PIDS.lookup "COOLANT_TEMP" = some ⟨"01", "05", 1, _temp⟩
    ∧ _temp [100] = .ok (.num 60)
    ∧ OBD_PIDS.lookup "VOLTAGE" = some ⟨"01", "42", 2, _voltage⟩
    ∧ _voltage [0x37, 0xB8] = .ok (.num (14264 / 1000))
    ∧ OBD_PIDS.lookup "MIL_STATUS" = some ⟨"01", "01", 4, milParse⟩
    ∧ milParse [0x81, 0x00, 0x00, 0x00] = .ok (.milStatus true 1)
    ∧ milParse [0x00, 0x00, 0x00, 0x00] = .ok (.milStatus false 0) := by
  refine ⟨?_, rfl, ?_, ?_, rfl, ?_, rfl, ?_, rfl, ?_, rfl, ?_, ?_⟩
  · intro p hp
    fin_cases hp <;> intro bs hlen <;>
      rcases bs with _ | ⟨a, _ | ⟨b, t⟩⟩ <;>
      simp only [List.length] at hlen <;>
      first
      | omega
      | (simp only [_a, _ab, _rpm, _temp, _percent_a, _percent_ab, _maf, _timing,
          _voltage, _fuel_rate, _short_fuel_trim, _long_fuel_trim, _evap_pressure,
          milParse, pyElem_cons_zero, pyElem_cons_succ, except_bind_ok, except_pure_eq]
         exact ⟨_, rfl⟩)
  · simp [_rpm]; norm_num
  · simp [_rpm]; norm_num
  · simp [_a]
  · simp [_temp]; norm_num
  · simp [_voltage, pyRound, roundHalfEven]; norm_num
  · simp [milParse]; decide
  · simp [milParse]

/-- Witness for C2 at the registered SPEED descriptor and the byte list
[100]. -/
theorem c2_value_decoders_witness :
    (("SPEED", (⟨"01", "0D", 1, _a⟩ : PidInfo)) ∈ OBD_PIDS)
    ∧ ([100] : List ℕ).length = (⟨"01", "0D", 1, _a⟩ : PidInfo).bytes
    ∧ ∃ v, (⟨"01", "0D", 1, _a⟩ : PidInfo).parse [100] = .ok v := by
  have hm : ("SPEED", (⟨"01", "0D", 1, _a⟩ : PidInfo)) ∈ OBD_PIDS :=
    List.Mem.tail _ (List.Mem.tail _ (List.Mem.head _))
  exact ⟨hm, rfl, c2_value_decoders.1 _ hm [100] rfl⟩

/-- Claim C6: a single-PID read raises if and only if the requested key is
not in the PID registry; for every registered key it returns a decoded
value or `None` for every behaviour of the connector — transport and
decode failures are absorbed. -/
theorem c6_unknown_key_iff (send : String → Except Unit String) (key : String) :
    (∃ v, readPid send key = .ok v) ↔ (OBD_PIDS.lookup key).isSome = true := by
  cases hk : OBD_PIDS.lookup key with
  | none => simp [readPid, hk]
  | some info =>
    simp only [readPid, hk, Option.isSome_some, iff_true]
    cases hatt : (do
        let raw ← send (info.mode ++ info.pid)
        match parseHexResponse raw info.mode info.pid with
        | some data =>
          if !data.isEmpty && info.bytes ≤ data.length then do
            let v ← info.parse (data.take info.bytes)
            pure (some v)
          else pure none
        | none => pure none : Except Unit (Option PyVal)) with
    | ok r => exact ⟨r, by simp [hatt]⟩
    | error e => exact ⟨none, by simp [hatt]⟩

/-- Counterexample to claim C5: the decode function registered for RPM,
invoked directly with 1 byte (fewer than the declared 2), raises an index
error (`Except.error`) instead of yielding "no value". -/
theorem c5_decoder_short_counterexample :
    OBD_PIDS.lookup "RPM" = some ⟨"01", "0C", 2, _rpm⟩
    ∧ ([0x0C] : List ℕ).length < 2
    ∧ _rpm [0x0C] = .error () :=
  ⟨rfl, by decide, by simp [_rpm]⟩

/-- Claim C5 (amended): the bare decode functions raise an index error
when invoked directly with fewer bytes than declared, but the single-PID
read guards on the declared byte count and wraps decoding in a catch-all,
so a read whose parsed payload is shorter than the declared count returns
`None` and never propagates an exception. -/
theorem c5_short_payload_amended (key : String) (info : PidInfo) (raw : String)
    (d : List ℕ) (hk : OBD_PIDS.lookup key = some info)
    (hp : parseHexResponse raw info.mode info.pid = some d)
    (hb : d.length < info.bytes) :
    readPid (fun _ => .ok raw) key = .ok none :=
  readPid_short key info raw d hk hp hb

/-- Witness for the amended C5: reading RPM from the reply "41 0C 0B"
(payload [0x0B], one byte short) yields `None`. -/
theorem c5_short_payload_amended_witness :
    OBD_PIDS.lookup "RPM" = some ⟨"01", "0C", 2, _rpm⟩
    ∧ parseHexResponse "41 0C 0B" "01" "0C" = some [0x0B]
    ∧ ([0x0B] : List ℕ).length < 2
    ∧ readPid (fun _ => .ok "41 0C 0B") "RPM" = .ok none :=
  ⟨rfl, by decide, by decide,
    c5_short_payload_amended "RPM" ⟨"01", "0C", 2, _rpm⟩ "41 0C 0B" [0x0B] rfl
      (by decide) (by decide)⟩

/-- Claim C10: when the parsed payload has more bytes than the declared
count, `read_pid` passes only the first declared-count bytes to the decode
function, so the decoded value is independent of trailing payload bytes. -/
theorem c10_extra_payload_bytes :
    (∀ (key : String) (info : PidInfo) (raw : String) (d : List ℕ),
      OBD_PIDS.lookup key = some info →
      parseHexResponse raw info.mode info.pid = some d →
      info.bytes ≤ d.length →
      readPid (fun _ => .ok raw) key = .ok (exceptToOption (info.parse (d.take info.bytes))))
    ∧ (∀ (key : String) (info : PidInfo) (raw₁ raw₂ : String) (d₁ d₂ : List ℕ),
      OBD_PIDS.lookup key = some info →
      parseHexResponse raw₁ info.mode info.pid = some d₁ →
      parseHexResponse raw₂ info.mode info.pid = some d₂ →
      info.bytes ≤ d₁.length → info.bytes ≤ d₂.length →
      d₁.take info.bytes = d₂.take info.bytes →
      readPid (fun _ => .ok raw₁) key = readPid (fun _ => .ok raw₂) key) := by
  refine ⟨readPid_take, ?_⟩
  intro key info raw₁ raw₂ d₁ d₂ hk hp₁ hp₂ hb₁ hb₂ htake
  rw [readPid_take key info raw₁ d₁ hk hp₁ hb₁, readPid_take key info raw₂ d₂ hk hp₂ hb₂,
    htake]

/-- Witness for C10: reading SPEED from "41 0D 64" and from
"41 0D 64 FF" (one extra payload byte) gives the same result. -/
theorem c10_extra_payload_bytes_witness :
    OBD_PIDS.lookup "SPEED" = some ⟨"01", "0D", 1, _a⟩
    ∧ parseHexResponse "41 0D 64" "01" "0D" = some [100]
    ∧ parseHexResponse "41 0D 64 FF" "01" "0D" = some [100, 0xFF]
    ∧ (⟨"01", "0D", 1, _a⟩ : PidInfo).bytes ≤ ([100] : List ℕ).length
    ∧ (⟨"01", "0D", 1, _a⟩ : PidInfo).bytes ≤ ([100, 0xFF] : List ℕ).length
    ∧ ([100] : List ℕ).take 1 = ([100, 0xFF] : List ℕ).take 1
    ∧ readPid (fun _ => .ok "41 0D 64") "SPEED" = readPid (fun _ => .ok "41 0D 64 FF") "SPEED" :=
  ⟨rfl, by decide, by decide, by decide, by decide, by decide,
    c10_extra_payload_bytes.2 "SPEED" ⟨"01", "0D", 1, _a⟩ "41 0D 64" "41 0D 64 FF"
      [100] [100, 0xFF] rfl (by decide) (by decide) (by decide) (by decide) (by decide)⟩

/-! ### Realtime poller loop (reader.py lines 224-254)

The `_loop` worker is modelled with an explicit oracle `stopAt` giving the
value returned by the `n`-th observation of `self._stop_event.is_set()`
(the while-condition, the per-key checks inside the for loop, and the
`wait(interval)` call each consume one observation, in program order),
an abstract per-key read `read` (the `self.read_pid` call with all its
failures already absorbed into `Option`), and a clock `times` supplying
`time.time()` per tick.  The `fuel` argument bounds the number of
iterations so the loop is a total function; every finite execution of the
worker is `pollerLoop` for a large enough fuel. -/

/-- `keys if keys else list(OBD_PIDS.keys())` of `start_realtime`. -/
def selectedKeys (ko : Option (List String)) : List String :=
  match ko with
  | some ks => if ks.isEmpty then OBD_PIDS.map Prod.fst else ks
  | none => OBD_PIDS.map Prod.fst

/-- Snapshot dictionary values: a per-PID read result, or the
`"_timestamp"` entry. -/
inductive SnapVal where
  | val (v : Option PyVal)
  | stamp (t : ℚ)
deriving DecidableEq

/-- The for-loop of `_loop`: read each key in order, but break as soon as
an observation of the stop event returns true; also returns the index of
the next unconsumed observation. -/
def collectFrom (read : String → Option PyVal) (stopAt : ℕ → Bool) :
    List String → ℕ → List (String × SnapVal) × ℕ
  | [], i => ([], i)
  | k :: ks, i =>
    if stopAt i then ([], i + 1)
    else
      let r := collectFrom read stopAt ks (i + 1)
      ((k, .val (read k)) :: r.1, r.2)

/-- One tick of `_loop`: the collected entries plus the `"_timestamp"`
entry (always appended, even after a mid-tick break), then one observation
consumed by `self._stop_event.wait(interval)`. -/
def tickSnap (read : String → Option PyVal) (stopAt : ℕ → Bool)
    (keys : List String) (i : ℕ) (now : ℚ) : List (String × SnapVal) × ℕ :=
  let c := collectFrom read stopAt keys i
  (c.1 ++ [("_timestamp", .stamp now)], c.2 + 1)

/-- The `while not self._stop_event.is_set()` loop of `_loop`: the list of
snapshots delivered to the callback. -/
def pollerLoop (read : String → Option PyVal) (stopAt : ℕ → Bool)
    (keys : List String) (times : ℕ → ℚ) : ℕ → ℕ → List (List (String × SnapVal))
  | 0, _ => []
  | fuel + 1, i =>
    if stopAt i then []
    else
      let t := tickSnap read stopAt keys (i + 1) (times i)
      t.1 :: pollerLoop read stopAt keys times fuel t.2

theorem collectFrom_prefix (read : String → Option PyVal) (stopAt : ℕ → Bool) :
    ∀ (keys : List String) (i : ℕ),
      ∃ n, (collectFrom read stopAt keys i).1.map Prod.fst = keys.take n
  | [], i => ⟨0, by simp [collectFrom]⟩
  | k :: ks, i => by
    by_cases hs : stopAt i = true
    · exact ⟨0, by simp [collectFrom, hs]⟩
    · obtain ⟨n, hn⟩ := collectFrom_prefix read stopAt ks (i + 1)
      exact ⟨n + 1, by simp [collectFrom, hs, hn]⟩

theorem collectFrom_full (read : String → Option PyVal) (stopAt : ℕ → Bool) :
    ∀ (keys : List String) (i : ℕ),
      (∀ j < keys.length, stopAt (i + j) = false) →
      (collectFrom read stopAt keys i).1.map Prod.fst = keys
  | [], i => fun _ => by simp [collectFrom]
  | k :: ks, i => fun h => by
    have h0 : stopAt i = false := by simpa using h 0 (by simp)
    have hrest : ∀ j < ks.length, stopAt (i + 1 + j) = false := by
      intro j hj
      have := h (j + 1) (by simpa using Nat.succ_lt_succ hj)
      simpa [Nat.add_assoc, Nat.add_comm 1 j] using this
    have ih := collectFrom_full read stopAt ks (i + 1) hrest
    simp [collectFrom, h0, ih]

theorem pollerLoop_keys_prefix (read : String → Option PyVal) (stopAt : ℕ → Bool)
    (keys : List String) (times : ℕ → ℚ) :
    ∀ (fuel i : ℕ) (snap : List (String × SnapVal)),
      snap ∈ pollerLoop read stopAt keys times fuel i →
      ∃ n, snap.map Prod.fst = keys.take n ++ ["_timestamp"]
  | 0, i => fun snap h => absurd h (by simp [pollerLoop])
  | fuel + 1, i => fun snap h => by
    by_cases hs : stopAt i = true
    · simp [pollerLoop, hs] at h
    · rw [pollerLoop] at h
      simp only [hs, Bool.false_eq_true, if_false, List.mem_cons] at h
      rcases h with rfl | h
      · obtain ⟨n, hn⟩ := collectFrom_prefix read stopAt keys (i + 1)
        exact ⟨n, by simp [tickSnap, hn]⟩
      · exact pollerLoop_keys_prefix read stopAt keys times fuel _ snap h

theorem tickSnap_exact (read : String → Option PyVal) (stopAt : ℕ → Bool)
    (keys : List String) (i : ℕ) (now : ℚ)
    (h : ∀ j < keys.length, stopAt (i + j) = false) :
    (tickSnap read stopAt keys i now).1.map Prod.fst = keys ++ ["_timestamp"] := by
  simp [tickSnap, collectFrom_full read stopAt keys i h]

/-- Counterexample to claim C7: with requested keys ["RPM", "SPEED"] and a
stop event that first reads true at observation 2 (i.e. cancellation is
signalled after the RPM read, during the tick), the loop still delivers a
snapshot, but that snapshot contains only the key "RPM" plus the
timestamp — not the full requested key set. -/
theorem c7_snapshot_keys_counterexample :
    pollerLoop (fun _ => none) (fun j => decide (2 ≤ j)) ["RPM", "SPEED"] (fun _ => 0) 2 0
      = [[("RPM", SnapVal.val none), ("_timestamp", SnapVal.stamp 0)]]
    ∧ ([("RPM", SnapVal.val none), ("_timestamp", SnapVal.stamp 0)].map Prod.fst
        ≠ ["RPM", "SPEED", "_timestamp"]) :=
  ⟨by decide, by decide⟩

/-- Claim C7 (amended): every snapshot the Poller delivers carries a
capture timestamp, and its data keys are a prefix of the requested key
list (the full registry key list, in registry order, when no keys are
specified); the prefix is the whole requested key set whenever no
observation of the stop event during the tick returns true, but a tick
during which cancellation is signalled may deliver a strict prefix. -/
theorem c7_snapshot_keys_amended :
    (∀ (read : String → Option PyVal) (stopAt : ℕ → Bool) (keys : List String)
       (times : ℕ → ℚ) (fuel i : ℕ) (snap : List (String × SnapVal)),
       snap ∈ pollerLoop read stopAt keys times fuel i →
       ("_timestamp" ∈ snap.map Prod.fst
         ∧ ∃ n, snap.map Prod.fst = keys.take n ++ ["_timestamp"]))
    ∧ (∀ (read : String → Option PyVal) (stopAt : ℕ → Bool) (keys : List String)
        (i : ℕ) (now : ℚ), (∀ j < keys.length, stopAt (i + j) = false) →
        (tickSnap read stopAt keys i now).1.map Prod.fst = keys ++ ["_timestamp"])
    ∧ selectedKeys none = OBD_PIDS.map Prod.fst
    ∧ (∀ ks : List String, ks ≠ [] → selectedKeys (some ks) = ks) := by
  refine ⟨?_, tickSnap_exact, rfl, ?_⟩
  · intro read stopAt keys times fuel i snap h
    obtain ⟨n, hn⟩ := pollerLoop_keys_prefix read stopAt keys times fuel i snap h
    exact ⟨by simp [hn], n, hn⟩
  · intro ks h
    simp [selectedKeys, h]

/-- Witness for the amended C7 on a one-key poll with the stop event never
set. -/
theorem c7_snapshot_keys_amended_witness :
    (("_timestamp" ∈ [("SPEED", SnapVal.val none), ("_timestamp", SnapVal.stamp 0)].map Prod.fst)
      ∧ ∃ n, [("SPEED", SnapVal.val none), ("_timestamp", SnapVal.stamp 0)].map Prod.fst
          = (["SPEED"] : List String).take n ++ ["_timestamp"])
    ∧ (tickSnap (fun _ => none) (fun _ => false) ["SPEED"] 1 0).1.map Prod.fst
        = ["SPEED"] ++ ["_timestamp"]
    ∧ selectedKeys (some ["SPEED"]) = ["SPEED"] :=
  ⟨c7_snapshot_keys_amended.1 (fun _ => none) (fun _ => false) ["SPEED"] (fun _ => 0) 1 0
      [("SPEED", SnapVal.val none), ("_timestamp", SnapVal.stamp 0)] (by decide),
   c7_snapshot_keys_amended.2.1 (fun _ => none) (fun _ => false) ["SPEED"] 1 0 (by decide),
   c7_snapshot_keys_amended.2.2.2 ["SPEED"] (by decide)⟩

/-! ### Poller start/stop state machine (reader.py lines 224-260)

`_realtime_thread` is the id of the most recently spawned worker (`none`
before any start), `live` the set of currently live worker ids,
`stopFlag` the `_stop_event`.  `start_realtime` returns immediately when
the recorded thread is alive; otherwise it clears the event and spawns a
fresh worker.  `stop_realtime` sets the event and joins the worker; in
this model each per-key read and the callback terminate, so the worker
observes cancellation at its next check (theorem
`c9_stop_cancellation`, last conjunct) and the join completes within its
timeout — stop therefore leaves no live worker.  A worker can also exit
spontaneously once the flag is set (`PStep.workerExit`). -/

structure PState where
  thread : Option ℕ
  live : List ℕ
  stopFlag : Bool
  nextId : ℕ
deriving DecidableEq

/-- `self._realtime_thread and self._realtime_thread.is_alive()`. -/
def isRunning (s : PState) : Bool :=
  match s.thread with
  | some t => s.live.contains t
  | none => false

/-- `start_realtime`: no-op when already running, otherwise clear the stop
event and spawn a fresh worker. -/
def startRealtime (s : PState) : PState :=
  if isRunning s then s
  else { thread := some s.nextId, live := s.nextId :: s.live,
         stopFlag := false, nextId := s.nextId + 1 }

/-- `stop_realtime`: set the stop event; the join (with terminating reads)
completes, leaving no live worker. -/
def stopRealtime (s : PState) : PState :=
  { s with stopFlag := true, live := [] }

/-- Interleaving of the poller's public operations and worker exits. -/
inductive PStep : PState → PState → Prop where
  | start (s : PState) : PStep s (startRealtime s)
  | stop (s : PState) : PStep s (stopRealtime s)
  | workerExit (s : PState) (t : ℕ) : s.stopFlag = true → t ∈ s.live →
      PStep s { s with live := s.live.erase t }

/-- A fresh `OBDReader`: no thread, no live worker, event clear. -/
def pInit : PState := { thread := none, live := [], stopFlag := false, nextId := 0 }

def PReach (s : PState) : Prop := Relation.ReflTransGen PStep pInit s

/-- The single-worker invariant: at most one live worker, and a live
worker is always the recorded thread. -/
def PInv (s : PState) : Prop :=
  s.live = [] ∨ ∃ t, s.live = [t] ∧ s.thread = some t

theorem pinv_step {s s' : PState} (hinv : PInv s) (hstep : PStep s s') : PInv s' := by
  cases hstep with
  | start =>
    by_cases hr : isRunning s = true
    · simpa [startRealtime, hr] using hinv
    · have hl : s.live = [] := by
        rcases hinv with h | ⟨t, hlt, hth⟩
        · exact h
        · exfalso; apply hr; simp [isRunning, hth, hlt]
      right
      exact ⟨s.nextId, by simp [startRealtime, hr, hl]⟩
  | stop => left; simp [stopRealtime]
  | workerExit t hflag hmem =>
    rcases hinv with h | ⟨t', hlt, hth⟩
    · rw [h] at hmem; simp at hmem
    · left
      rw [hlt] at hmem
      simp at hmem
      subst hmem
      simp [hlt]

theorem preach_inv {s : PState} (h : PReach s) : PInv s := by
  induction h with
  | refl => left; rfl
  | tail _ hstep ih => exact pinv_step ih hstep

/-- Claim C8: calling start on a Poller that is already Running is a
no-op (it neither spawns a second worker nor disturbs the first), and at
every reachable state of the start/stop step relation there is at most
one live worker. -/
theorem c8_start_idempotent :
    (∀ s : PState, isRunning s = true → startRealtime s = s)
    ∧ (∀ s : PState, PReach s → s.live.length ≤ 1) := by
  constructor
  · intro s h; simp [startRealtime, h]
  · intro s h
    rcases preach_inv h with hl | ⟨t, hlt, -⟩
    · simp [hl]
    · simp [hlt]

/-- Witness for C8: start on a concrete running state is the identity,
and the initial state has at most one live worker. -/
theorem c8_start_idempotent_witness :
    startRealtime ⟨some 0, [0], false, 1⟩ = ⟨some 0, [0], false, 1⟩
    ∧ pInit.live.length ≤ 1 :=
  ⟨c8_start_idempotent.1 _ (by decide), c8_start_idempotent.2 pInit Relation.ReflTransGen.refl⟩

/-- Claim C9: stop() signals cancellation and (with terminating reads, so
that the join completes within its timeout) leaves the Poller Idle; stop
on an Idle poller changes nothing but the cancellation flag and is
idempotent; once an observation of the stop event returns true, the
worker's loop delivers no further snapshot and exits. -/
theorem c9_stop_cancellation :
    (∀ s : PState, (stopRealtime s).stopFlag = true)
    ∧ (∀ s : PState, isRunning (stopRealtime s) = false)
    ∧ (∀ s : PState, PReach s → isRunning s = false →
        stopRealtime s = { s with stopFlag := true })
    ∧ (∀ s : PState, stopRealtime (stopRealtime s) = stopRealtime s)
    ∧ (∀ (read : String → Option PyVal) (stopAt : ℕ → Bool) (keys : List String)
        (times : ℕ → ℚ) (fuel i : ℕ), stopAt i = true →
        pollerLoop read stopAt keys times fuel i = []) := by
  refine ⟨fun s => rfl, ?_, ?_, fun s => rfl, ?_⟩
  · intro s
    cases hth : s.thread <;> simp [isRunning, stopRealtime, hth]
  · intro s hr hidle
    have hl : s.live = [] := by
      rcases preach_inv hr with h | ⟨t, hlt, hth⟩
      · exact h
      · exfalso
        simp [isRunning, hth, hlt] at hidle
    cases s
    simp_all [stopRealtime]
  · intro read stopAt keys times fuel i h
    cases fuel <;> simp [pollerLoop, h]

/-- Witness for C9 at the initial (Idle) state and a concrete cancelled
loop. -/
theorem c9_stop_cancellation_witness :
    (stopRealtime pInit).stopFlag = true
    ∧ isRunning (stopRealtime pInit) = false
    ∧ stopRealtime pInit = { pInit with stopFlag := true }
    ∧ pollerLoop (fun _ => none) (fun _ => true) ["SPEED"] (fun _ => 0) 5 0 = [] :=
  ⟨c9_stop_cancellation.1 pInit, c9_stop_cancellation.2.1 pInit,
    c9_stop_cancellation.2.2.1 pInit Relation.ReflTransGen.refl rfl,
    c9_stop_cancellation.2.2.2.2 _ _ _ _ 5 0 rfl⟩

end Obd2
